import Mathlib

/-!
Shallow embedding of the `gogogo-server` session relay
(`src/pty.ts`, `src/web-server.ts`), together with proofs about its
size-reconciliation, history-buffer, message-routing, ASR-bridge and
broadcast behaviour.

Conventions of the embedding:
* JavaScript numbers that the code compares with `> 0` or uses in
  truthiness tests are modelled as `Int` (`0` is falsy, every other
  integer truthy).
* A WebSocket `send`/`close`/`write` call is modelled as an element of an
  effect list, in the order the code issues the calls; a `setTimeout`
  deferred close is an effect carrying its delay in milliseconds.
* The registry `Map` of `web-server.ts` is modelled as a `List` in
  insertion order.
-/

namespace Gogogo

/-- A terminal size `(cols, rows)`, as produced by `getLocalSize` in
`src/pty.ts` and stored per client in `src/web-server.ts`. -/
structure Size where
  cols : Int
  rows : Int
  deriving Repr, DecidableEq

/-- The state of a backend (ASR-gateway) WebSocket held in
`clientInfo.asrWs`: its identity and whether `readyState === OPEN`. -/
structure AsrConn where
  connId : Nat
  isOpen : Bool
  deriving Repr, DecidableEq

/-- One entry of the `connectedClients` map of `src/web-server.ts`:
`{ cols, rows, id, asrWs?, sessionReady?, audioChunkCount?, terminalContext? }`. -/
structure ClientInfo where
  id : Nat
  cols : Int
  rows : Int
  asrWs : Option AsrConn
  sessionReady : Bool
  audioChunkCount : Nat
  terminalContext : String
  deriving Repr, DecidableEq

/-- The client entry as initialised on connection
(`{ cols: 80, rows: 24, id: clientId }`, web-server.ts line 1697). -/
def initClientInfo (cid : Nat) : ClientInfo :=
  { id := cid, cols := 80, rows := 24, asrWs := none, sessionReady := false,
    audioChunkCount := 0, terminalContext := "" }

/-- `calculateMinSize` (web-server.ts lines 32–46): starting from the local
terminal size, fold over all connected clients, taking the componentwise
minimum with each client whose stored `cols` and `rows` are both positive. -/
def calculateMinSize (localSize : Size) (clients : List ClientInfo) : Size :=
  clients.foldl
    (fun acc c =>
      if 0 < c.cols ∧ 0 < c.rows then
        { cols := min acc.cols c.cols, rows := min acc.rows c.rows }
      else acc)
    localSize

/-- `applyMinSize` (web-server.ts lines 49–62): with zero clients, resize
the PTY to the local size; otherwise resize to `calculateMinSize` provided
both components are positive (no resize call otherwise).  The result is
the argument of the issued `resizePTY` call, `none` when none is issued. -/
def applyMinSize (localSize : Size) (clients : List ClientInfo) : Option Size :=
  if clients.length = 0 then
    some localSize
  else
    let s := calculateMinSize localSize clients
    if 0 < s.cols ∧ 0 < s.rows then some s else none

/-- `outputBuffer.push(data)` followed by the trim
`if (outputBuffer.length > MAX_BUFFER_SIZE) outputBuffer = outputBuffer.slice(-3000)`
(web-server.ts lines 1994–1997), with `MAX_BUFFER_SIZE = 5000`.
`l.slice(-3000)` keeps the last 3000 elements, i.e. drops `length - 3000`. -/
def pushChunk (buf : List String) (d : String) : List String :=
  let b := buf ++ [d]
  if 5000 < b.length then b.drop (b.length - 3000) else b

/-- Pushing a whole sequence of output chunks through `pushChunk`. -/
def pushMany (buf : List String) (ds : List String) : List String :=
  ds.foldl pushChunk buf

/-- The predicate under which `calculateMinSize` takes a client into
account: both stored dimensions are positive. -/
def sizeReported (c : ClientInfo) : Prop := 0 < c.cols ∧ 0 < c.rows

instance (c : ClientInfo) : Decidable (sizeReported c) := by
  unfold sizeReported; infer_instance

lemma calculateMinSize_spec (localSize : Size) (clients : List ClientInfo) :
    (calculateMinSize localSize clients).cols ≤ localSize.cols ∧
    (calculateMinSize localSize clients).rows ≤ localSize.rows ∧
    (∀ c ∈ clients, 0 < c.cols → 0 < c.rows →
      (calculateMinSize localSize clients).cols ≤ c.cols ∧
      (calculateMinSize localSize clients).rows ≤ c.rows) ∧
    ((calculateMinSize localSize clients).cols = localSize.cols ∨
      ∃ c ∈ clients, 0 < c.cols ∧ 0 < c.rows ∧
        (calculateMinSize localSize clients).cols = c.cols) ∧
    ((calculateMinSize localSize clients).rows = localSize.rows ∨
      ∃ c ∈ clients, 0 < c.cols ∧ 0 < c.rows ∧
        (calculateMinSize localSize clients).rows = c.rows) := by
  induction clients generalizing localSize with
  | nil => exact ⟨le_refl _, le_refl _, by simp, Or.inl rfl, Or.inl rfl⟩
  | cons c cs ih =>
    by_cases h : 0 < c.cols ∧ 0 < c.rows
    · have hstep : calculateMinSize localSize (c :: cs) =
          calculateMinSize { cols := min localSize.cols c.cols,
                             rows := min localSize.rows c.rows } cs := by
        simp only [calculateMinSize, List.foldl_cons, if_pos h]
      obtain ⟨h1, h2, h3, h4, h5⟩ :=
        ih { cols := min localSize.cols c.cols, rows := min localSize.rows c.rows }
      rw [hstep]
      refine ⟨le_trans h1 (min_le_left _ _), le_trans h2 (min_le_left _ _), ?_, ?_, ?_⟩
      · intro c' hc' p1 p2
        rcases List.mem_cons.mp hc' with rfl | hc'
        · exact ⟨le_trans h1 (min_le_right _ _), le_trans h2 (min_le_right _ _)⟩
        · exact h3 c' hc' p1 p2
      · rcases h4 with h4 | ⟨c', hm, p1, p2, he⟩
        · rcases min_choice localSize.cols c.cols with hm | hm
          · exact Or.inl (h4.trans hm)
          · exact Or.inr ⟨c, List.mem_cons_self c cs, h.1, h.2, h4.trans hm⟩
        · exact Or.inr ⟨c', List.mem_cons_of_mem _ hm, p1, p2, he⟩
      · rcases h5 with h5 | ⟨c', hm, p1, p2, he⟩
        · rcases min_choice localSize.rows c.rows with hm | hm
          · exact Or.inl (h5.trans hm)
          · exact Or.inr ⟨c, List.mem_cons_self c cs, h.1, h.2, h5.trans hm⟩
        · exact Or.inr ⟨c', List.mem_cons_of_mem _ hm, p1, p2, he⟩
    · have hstep : calculateMinSize localSize (c :: cs) = calculateMinSize localSize cs := by
        simp only [calculateMinSize, List.foldl_cons, if_neg h]
      obtain ⟨h1, h2, h3, h4, h5⟩ := ih localSize
      rw [hstep]
      refine ⟨h1, h2, ?_, ?_, ?_⟩
      · intro c' hc' p1 p2
        rcases List.mem_cons.mp hc' with rfl | hc'
        · exact absurd ⟨p1, p2⟩ h
        · exact h3 c' hc' p1 p2
      · rcases h4 with h4 | ⟨c', hm, p1, p2, he⟩
        · exact Or.inl h4
        · exact Or.inr ⟨c', List.mem_cons_of_mem _ hm, p1, p2, he⟩
      · rcases h5 with h5 | ⟨c', hm, p1, p2, he⟩
        · exact Or.inl h5
        · exact Or.inr ⟨c', List.mem_cons_of_mem _ hm, p1, p2, he⟩

/-- `C1`: with zero registered clients, reconciliation resizes the PTY to
the local terminal's native size; otherwise (for any positive local size)
it resizes to a size that is a lower bound of the local size and of every
client with both dimensions positive, and each component of which is
attained by the local terminal or by such a client — i.e. the
componentwise minimum of the local size and the positively-sized clients. -/
theorem C1_effective_size_is_componentwise_min
    (localSize : Size) (clients : List ClientInfo)
    (hc : 0 < localSize.cols) (hr : 0 < localSize.rows) :
    (clients = [] → applyMinSize localSize clients = some localSize) ∧
    ∃ s, applyMinSize localSize clients = some s ∧
      s.cols ≤ localSize.cols ∧ s.rows ≤ localSize.rows ∧
      (∀ c ∈ clients, 0 < c.cols → 0 < c.rows → s.cols ≤ c.cols ∧ s.rows ≤ c.rows) ∧
      (s.cols = localSize.cols ∨ ∃ c ∈ clients, 0 < c.cols ∧ 0 < c.rows ∧ s.cols = c.cols) ∧
      (s.rows = localSize.rows ∨ ∃ c ∈ clients, 0 < c.cols ∧ 0 < c.rows ∧ s.rows = c.rows) := by
  by_cases hnil : clients = []
  · subst hnil
    exact ⟨fun _ => rfl,
      ⟨localSize, rfl, le_refl _, le_refl _, by simp, Or.inl rfl, Or.inl rfl⟩⟩
  · obtain ⟨h1, h2, h3, h4, h5⟩ := calculateMinSize_spec localSize clients
    have hcolpos : 0 < (calculateMinSize localSize clients).cols := by
      rcases h4 with h | ⟨c, _, p1, _, he⟩
      · omega
      · omega
    have hrowpos : 0 < (calculateMinSize localSize clients).rows := by
      rcases h5 with h | ⟨c, _, _, p2, he⟩
      · omega
      · omega
    have happ : applyMinSize localSize clients = some (calculateMinSize localSize clients) := by
      unfold applyMinSize
      rw [if_neg (by simpa [List.length_eq_zero] using hnil),
          if_pos ⟨hcolpos, hrowpos⟩]
    exact ⟨fun h => absurd h hnil,
      ⟨calculateMinSize localSize clients, happ, h1, h2, h3, h4, h5⟩⟩

/-- Witness for `C1`: local terminal 120×40, client A reporting 80×24 and
client B reporting 100×30 give effective size 80×24 (the spec's example). -/
theorem C1_effective_size_witness :
    (0 : Int) < 120 ∧ (0 : Int) < 40 ∧
    ∃ s, applyMinSize ⟨120, 40⟩
        [{ initClientInfo 1 with cols := 80, rows := 24 },
         { initClientInfo 2 with cols := 100, rows := 30 }] = some s ∧
      s.cols ≤ 120 ∧ s.rows ≤ 40 := by
  refine ⟨by decide, by decide, ?_⟩
  obtain ⟨-, s, hs, h1, h2, -⟩ :=
    C1_effective_size_is_componentwise_min ⟨120, 40⟩
      [{ initClientInfo 1 with cols := 80, rows := 24 },
       { initClientInfo 2 with cols := 100, rows := 30 }] (by decide) (by decide)
  exact ⟨s, hs, h1, h2⟩

lemma pushChunk_length (buf : List String) (d : String) :
    (pushChunk buf d).length =
      if 5000 < buf.length + 1 then 3000 else buf.length + 1 := by
  unfold pushChunk
  simp only [List.length_append, List.length_cons, List.length_nil, Nat.zero_add]
  by_cases h : 5000 < buf.length + 1
  · rw [if_pos h, if_pos h, List.length_drop]
    simp only [List.length_append, List.length_cons, List.length_nil]
    omega
  · rw [if_neg h, if_neg h]
    simp

lemma pushChunk_getLast? (buf : List String) (d : String) :
    (pushChunk buf d).getLast? = some d := by
  unfold pushChunk
  by_cases h : 5000 < (buf ++ [d]).length
  · rw [if_pos h]
    have hne : (buf ++ [d]).drop ((buf ++ [d]).length - 3000) ≠ [] := by
      have hl : ((buf ++ [d]).drop ((buf ++ [d]).length - 3000)).length = 3000 := by
        rw [List.length_drop]; omega
      intro hcon
      rw [hcon] at hl
      simp at hl
    obtain ⟨pre, hpre⟩ := List.drop_suffix ((buf ++ [d]).length - 3000) (buf ++ [d])
    have h2 : (pre ++ (buf ++ [d]).drop ((buf ++ [d]).length - 3000)).getLast? =
        ((buf ++ [d]).drop ((buf ++ [d]).length - 3000)).getLast? :=
      List.getLast?_append_of_ne_nil pre hne
    rw [← h2, hpre]
    exact List.getLast?_concat _
  · rw [if_neg h]
    exact List.getLast?_concat _

lemma pushMany_append (buf : List String) (l1 l2 : List String) :
    pushMany buf (l1 ++ l2) = pushMany (pushMany buf l1) l2 :=
  List.foldl_append _ _ _ _

lemma pushMany_length_of_le (ds : List String) (h : ds.length ≤ 5000) :
    (pushMany [] ds).length = ds.length := by
  induction ds using List.reverseRecOn with
  | nil => rfl
  | append_singleton ds d ih =>
    rw [pushMany_append, show pushMany (pushMany [] ds) [d] = pushChunk (pushMany [] ds) d
          from rfl, pushChunk_length]
    rw [List.length_append, List.length_cons, List.length_nil] at h ⊢
    rw [ih (by omega)]
    rw [if_neg (by omega)]

lemma pushMany_getLast? (buf : List String) (ds : List String) (h : ds ≠ []) :
    (pushMany buf ds).getLast? = ds.getLast? := by
  induction ds using List.reverseRecOn with
  | nil => exact absurd rfl h
  | append_singleton ds d ih =>
    rw [pushMany_append, show pushMany (pushMany buf ds) [d] = pushChunk (pushMany buf ds) d
          from rfl, pushChunk_getLast?, List.getLast?_concat]

/-- `C4`: after every append the history buffer holds at most 5000 chunks;
an append that pushes it past 5000 trims it to exactly 3000 entries that
form a suffix (the most recent entries) of the untrimmed buffer; the last
entry is always the chunk just pushed; and pushing 5001 chunks into an
empty buffer leaves at most 3000 entries ending with the 5001st chunk. -/
theorem C4_history_buffer_trim (buf : List String) (d : String) (ds : List String)
    (hds : ds.length = 5001) :
    (pushChunk buf d).length ≤ 5000 ∧
    (5000 < (buf ++ [d]).length →
      (pushChunk buf d).length = 3000 ∧ ∃ pre, pre ++ pushChunk buf d = buf ++ [d]) ∧
    (pushChunk buf d).getLast? = some d ∧
    (pushMany [] ds).length ≤ 3000 ∧
    (pushMany [] ds).getLast? = ds.getLast? := by
  have hlen := pushChunk_length buf d
  refine ⟨?_, ?_, pushChunk_getLast? buf d, ?_, ?_⟩
  · rw [hlen]
    by_cases h : 5000 < buf.length + 1
    · rw [if_pos h]; omega
    · rw [if_neg h]; omega
  · intro h
    rw [List.length_append, List.length_cons, List.length_nil] at h
    refine ⟨by rw [hlen, if_pos (by omega)], ?_⟩
    have : pushChunk buf d = (buf ++ [d]).drop ((buf ++ [d]).length - 3000) := by
      unfold pushChunk
      rw [if_pos (by rw [List.length_append, List.length_cons, List.length_nil]; omega)]
    rw [this]
    exact List.drop_suffix _ _
  · obtain ⟨ds', d', rfl⟩ : ∃ l x, ds = l ++ [x] := by
      rcases ds.eq_nil_or_concat with h | ⟨l, x, h⟩
      · rw [h] at hds; simp at hds
      · exact ⟨l, x, by rw [h, List.concat_eq_append]⟩
    rw [pushMany_append, show pushMany (pushMany [] ds') [d'] = pushChunk (pushMany [] ds') d'
          from rfl, pushChunk_length]
    rw [List.length_append, List.length_cons, List.length_nil] at hds
    rw [pushMany_length_of_le ds' (by omega), if_pos (by omega)]
  · exact pushMany_getLast? [] ds (by intro hcon; rw [hcon] at hds; simp at hds)

/-- Witness for `C4`: pushing 5001 concrete chunks into an empty buffer
leaves exactly 3000 entries, ending with the 5001st chunk. -/
theorem C4_history_buffer_trim_witness :
    (List.replicate 5001 "y").length = 5001 ∧
    (pushMany [] (List.replicate 5001 "y")).length ≤ 3000 ∧
    (pushMany [] (List.replicate 5001 "y")).getLast? =
      (List.replicate 5001 "y").getLast? :=
  ⟨by rw [List.length_replicate],
   (C4_history_buffer_trim [] "x" (List.replicate 5001 "y")
     (by rw [List.length_replicate])).2.2.2.1,
   (C4_history_buffer_trim [] "x" (List.replicate 5001 "y")
     (by rw [List.length_replicate])).2.2.2.2⟩

/-! ## Pseudo-terminal controller (`src/pty.ts`) -/

/-- The live pseudo-terminal: its current size and the bytes written to the
child's input stream. -/
structure Pty where
  cols : Int
  rows : Int
  ptyInput : List String
  deriving Repr, DecidableEq

/-- `writeToPTY` (pty.ts lines 98–102): forwards the bytes when a process is
running, silently does nothing otherwise. -/
def writeToPTY (p : Option Pty) (d : String) : Option Pty :=
  match p with
  | none => none
  | some pt => some { pt with ptyInput := pt.ptyInput ++ [d] }

/-- `resizePTY` (pty.ts lines 104–108): resizes when a process is running,
silently does nothing otherwise. -/
def resizePTY (p : Option Pty) (c r : Int) : Option Pty :=
  match p with
  | none => none
  | some pt => some { pt with cols := c, rows := r }

/-- `spawnPTY` (pty.ts lines 26–96), reduced to the state it establishes:
a running process with the given initial size and no input yet. -/
def spawnPTY (c r : Int) : Option Pty :=
  some { cols := c, rows := r, ptyInput := [] }

/-! ## Wire messages and side effects -/

/-- Payloads of `asr_response` envelopes sent to the client
(web-server.ts lines 1769–1836). -/
inductive AsrData where
  | ready
  | partialRes (text : String)
  | finalRes (text : String)
  | correctionRes (original corrected : String)
  | errorData (message : String)
  | passthrough (raw : String)
  deriving Repr, DecidableEq

/-- Relay→client messages (`ws.send` payloads of web-server.ts). -/
inductive SMsg where
  | history (data : List String)
  | output (d : String)
  | exitMsg (code : Int)
  | asrResponse (d : AsrData)
  | claudeResponse (text : Option String) (done : Bool)
      (error : Option String) (fallback : Option String)
  deriving Repr, DecidableEq

/-- Relay→ASR-gateway messages (web-server.ts lines 1734–1749, 1866–1869,
1891–1893, 1917–1921). -/
inductive BMsg where
  | startAsr (language mdl : String)
  | contextUpdate (context : String)
  | audioData (audio : String)
  | stopAsr
  | correctText (text context : String)
  deriving Repr, DecidableEq

/-- Observable calls issued by the relay, in program order.  A
`setTimeout`-deferred `close` is recorded with its delay in milliseconds
(`delayMs = 0` for an immediate close). -/
inductive Effect where
  | sendClient (m : SMsg)
  | sendBackend (m : BMsg)
  | openBackend (connId : Nat)
  | closeBackend (connId : Nat) (delayMs : Nat) (closeCode : Nat)
  | writePty (d : String)
  | resizePty (s : Size)
  | writeStdout (d : String)
  | dataCallback (d : String)
  deriving Repr, DecidableEq

/-- The `ptyProcess.onData` handler (pty.ts lines 52–60): every chunk is
written to the local terminal (`process.stdout.write`) first, then handed
to the registered data callback if one is set. -/
def ptyOnData (hasCallback : Bool) (d : String) : List Effect :=
  Effect.writeStdout d :: (if hasCallback then [Effect.dataCallback d] else [])

/-! ## Output broadcaster (`src/web-server.ts` lines 1992–2016) -/

/-- A client connection as the broadcaster sees it: whether its WebSocket
`readyState` is `OPEN`, and the messages sent to it so far. -/
structure WsClient where
  wsOpen : Bool
  msgs : List SMsg
  deriving Repr, DecidableEq

/-- Send one message to every client whose socket is open
(the `connectedClients.forEach` + `readyState === OPEN` pattern). -/
def broadcastToClients (clients : List WsClient) (m : SMsg) : List WsClient :=
  clients.map (fun c => if c.wsOpen then { c with msgs := c.msgs ++ [m] } else c)

/-- The combined effect of a PTY exit: `ptyProcess.onExit` (pty.ts
lines 63–68) runs the exit callback — the `onPTYExit` broadcast of
web-server.ts lines 2009–2016 — and then clears `ptyProcess`. -/
def ptyExitStep (code : Int) (clients : List WsClient) :
    Option Pty × List WsClient :=
  (none, broadcastToClients clients (SMsg.exitMsg code))

/-! ## Message router and ASR bridge (`src/web-server.ts` lines 1691–1990) -/

/-- A pending short-lived correction connection opened by the
`claude_process` fallback path (web-server.ts lines 1924–1955): the
closures over `msg.transcript` / `msg.context` captured by its callbacks. -/
structure CorrectionConn where
  connId : Nat
  transcript : String
  context : String
  deriving Repr, DecidableEq

/-- The whole relay-server state touched by the message handlers. -/
structure Srv where
  registry : List ClientInfo
  buffer : List String
  pty : Option Pty
  localSize : Size
  nextConn : Nat
  openConns : List Nat
  corrections : List CorrectionConn
  deriving Repr, DecidableEq

/-- Client→relay envelopes.  `Option Envelope = none` models an incoming
frame whose `JSON.parse` (or field access) throws; `unknown` models a
well-formed envelope with an unrecognized `type` discriminant.  Optional
string fields are `String` with `""` for absent/falsy (as `x || ''`). -/
inductive Envelope where
  | input (data : String)
  | asrStart (language mdl context : String)
  | asrAudio (audio : String)
  | asrCommit
  | asrStop
  | claudeProcess (transcript context : String)
  | resizeMsg (cols rows : Int)
  | unknown (ty : String)
  deriving Repr, DecidableEq

/-- Look up the `connectedClients` entry of a connection. -/
def findClient (st : Srv) (cid : Nat) : Option ClientInfo :=
  st.registry.find? (fun c => c.id = cid)

/-- Mutate the registry entry of one connection in place. -/
def updateClient (reg : List ClientInfo) (cid : Nat) (f : ClientInfo → ClientInfo) :
    List ClientInfo :=
  reg.map (fun c => if c.id = cid then f c else c)

/-- Run reconciliation (`applyMinSize`) against the current registry:
the issued `resizePTY` call both updates the PTY state and is recorded
as an effect. -/
def applyMinSizeStep (st : Srv) : Srv × List Effect :=
  match applyMinSize st.localSize st.registry with
  | some s => ({ st with pty := resizePTY st.pty s.cols s.rows }, [Effect.resizePty s])
  | none => (st, [])

/-- The `asr_start` handler (web-server.ts lines 1717–1853), immediate
part: allocate a fresh gateway connection (`new WebSocketClient(...)`,
initially CONNECTING, so `isOpen = false`) and overwrite
`clientInfo.asrWs`, `sessionReady`, `audioChunkCount`, `terminalContext`.
No close is issued for a previously stored connection, so it stays in
`openConns` — the list of backend connections for which the relay has
never issued or scheduled a close.  `asrStartUpdate` is the overwrite it
performs on the client's registry entry (lines 1725–1728). -/
def asrStartUpdate (n : Nat) (context : String) (c : ClientInfo) : ClientInfo :=
  { c with asrWs := some ⟨n, false⟩,
           sessionReady := false,
           audioChunkCount := 0,
           terminalContext := context }

def handleAsrStart (st : Srv) (cid : Nat) (context : String) : Srv × List Effect :=
  ({ st with
      registry := updateClient st.registry cid (asrStartUpdate st.nextConn context),
      nextConn := st.nextConn + 1,
      openConns := st.openConns ++ [st.nextConn] },
   [Effect.openBackend st.nextConn])

/-- The `asr_audio` handler (web-server.ts lines 1856–1879): forward to
the gateway only when `asrWs.readyState === OPEN && sessionReady`;
otherwise drop the chunk with no message to anyone and no state change. -/
def handleAsrAudio (c : ClientInfo) (audio : String) : ClientInfo × List Effect :=
  match c.asrWs with
  | none => (c, [])
  | some conn =>
      if conn.isOpen = true ∧ c.sessionReady = true then
        ({ c with audioChunkCount := c.audioChunkCount + 1 },
         [Effect.sendBackend (BMsg.audioData audio)])
      else (c, [])

/-- The `asr_stop` handler (web-server.ts lines 1886–1909): with an open
gateway connection, send `stop_asr` and schedule the close 1000 ms later
(`setTimeout(..., 1000)`, close code 1000); with a non-open connection,
just drop the reference. -/
def handleAsrStop (c : ClientInfo) : ClientInfo × List Effect :=
  match c.asrWs with
  | none => (c, [])
  | some conn =>
      if conn.isOpen = true then
        (c, [Effect.sendBackend BMsg.stopAsr,
             Effect.closeBackend conn.connId 1000 1000])
      else ({ c with asrWs := none, audioChunkCount := 0 }, [])

/-- The `claude_process` fallback path (web-server.ts lines 1923–1955):
open a short-lived gateway connection whose callbacks capture the request
transcript and context. -/
def claudeFallback (st : Srv) (transcript context : String) : Srv × List Effect :=
  ({ st with nextConn := st.nextConn + 1,
             openConns := st.openConns ++ [st.nextConn],
             corrections := st.corrections ++ [⟨st.nextConn, transcript, context⟩] },
   [Effect.openBackend st.nextConn])

/-- The `claude_process` handler (web-server.ts lines 1912–1957): reuse an
open ASR gateway connection (`context: msg.context || clientInfo.terminalContext`),
otherwise open a short-lived correction connection. -/
def handleClaudeProcess (st : Srv) (cid : Nat) (transcript context : String) :
    Srv × List Effect :=
  match findClient st cid with
  | none => (st, [])
  | some c =>
      match c.asrWs with
      | some conn =>
          if conn.isOpen = true then
            (st, [Effect.sendBackend (BMsg.correctText transcript
                    (if context ≠ "" then context else c.terminalContext))])
          else claudeFallback st transcript context
      | none => claudeFallback st transcript context

/-- The `correctionWs.on('message')` callback for a `correction_result`
(web-server.ts lines 1935–1947): one `claude_response {text, done:true}`
to the client, then close the short-lived connection. -/
def handleCorrectionResult (s : CorrectionConn) (corrected : String) : List Effect :=
  [Effect.sendClient (SMsg.claudeResponse (some corrected) true none none),
   Effect.closeBackend s.connId 0 1000]

/-- The `correctionWs.on('error')` callback (web-server.ts lines
1949–1955): a single `claude_response` carrying the error and, as
`fallback`, the original transcript captured by the closure. -/
def handleCorrectionError (s : CorrectionConn) (err : String) : List Effect :=
  [Effect.sendClient (SMsg.claudeResponse none false (some err) (some s.transcript))]

/-- The `resize` handler (web-server.ts lines 1959–1968), guarded by the
dispatcher's `msg.cols && msg.rows` truthiness test (`0` is falsy):
store the client's reported size, then reconcile. -/
def handleResize (st : Srv) (cid : Nat) (cols rows : Int) : Srv × List Effect :=
  if cols ≠ 0 ∧ rows ≠ 0 then
    applyMinSizeStep
      { st with registry :=
          updateClient st.registry cid (fun c => { c with cols := cols, rows := rows }) }
  else (st, [])

/-- The `ws.on('message')` handler (web-server.ts lines 1705–1972).  The
surrounding `try`/`catch` makes a frame that fails to parse (`none`) a
logged no-op; an envelope whose `type` matches no branch likewise falls
through every `if`.  Messages acting on the connection's own registry
entry are dispatched through `findClient`/`updateClient`. -/
def handleMessage (st : Srv) (cid : Nat) (m : Option Envelope) : Srv × List Effect :=
  match m with
  | none => (st, [])
  | some env =>
      match env with
      | .input d =>
          if d ≠ "" then ({ st with pty := writeToPTY st.pty d }, [Effect.writePty d])
          else (st, [])
      | .asrStart _ _ context => handleAsrStart st cid context
      | .asrAudio audio =>
          match findClient st cid with
          | none => (st, [])
          | some c =>
              let r := handleAsrAudio c audio
              ({ st with registry := updateClient st.registry cid (fun _ => r.1) }, r.2)
      | .asrCommit => (st, [])
      | .asrStop =>
          match findClient st cid with
          | none => (st, [])
          | some c =>
              let r := handleAsrStop c
              ({ st with
                  registry := updateClient st.registry cid (fun _ => r.1),
                  openConns :=
                    match c.asrWs with
                    | some conn =>
                        if conn.isOpen = true then st.openConns.erase conn.connId
                        else st.openConns
                    | none => st.openConns }, r.2)
      | .claudeProcess t context => handleClaudeProcess st cid t context
      | .resizeMsg cols rows => handleResize st cid cols rows
      | .unknown _ => (st, [])

/-- The `ws.on('close')` handler (web-server.ts lines 1974–1989): close
any gateway connection immediately (`close(1001)`, no delay), remove the
registry entry, then reconcile the PTY size. -/
def handleClientClose (st : Srv) (cid : Nat) : Srv × List Effect :=
  match findClient st cid with
  | none => (st, [])
  | some c =>
      let closeEffs : List Effect :=
        match c.asrWs with
        | some conn => [Effect.closeBackend conn.connId 0 1001]
        | none => []
      let st1 : Srv :=
        { st with
            registry := st.registry.eraseP (fun x => x.id = cid),
            openConns :=
              match c.asrWs with
              | some conn => st.openConns.erase conn.connId
              | none => st.openConns }
      let r := applyMinSizeStep st1
      (r.1, closeEffs ++ r.2)

/-! ## Helper lemmas about the registry -/

lemma updateClient_cons (a : ClientInfo) (l : List ClientInfo) (cid : Nat)
    (f : ClientInfo → ClientInfo) :
    updateClient (a :: l) cid f =
      (if a.id = cid then f a else a) :: updateClient l cid f := rfl

lemma updateClient_eq_of (cid : Nat) (f : ClientInfo → ClientInfo) :
    ∀ reg : List ClientInfo, (∀ x ∈ reg, x.id = cid → f x = x) →
      updateClient reg cid f = reg := by
  intro reg
  induction reg with
  | nil => intro _; rfl
  | cons a l ih =>
    intro h
    rw [updateClient_cons, ih (fun x hx hx2 => h x (List.mem_cons_of_mem _ hx) hx2)]
    by_cases ha : a.id = cid
    · rw [if_pos ha, h a (List.mem_cons_self _ _) ha]
    · rw [if_neg ha]

lemma find?_updateClient (cid : Nat) (f : ClientInfo → ClientInfo)
    (hf : ∀ x, (f x).id = x.id) :
    ∀ (reg : List ClientInfo) (c : ClientInfo),
      reg.find? (fun x => x.id = cid) = some c →
      (updateClient reg cid f).find? (fun x => x.id = cid) = some (f c) := by
  intro reg
  induction reg with
  | nil => intro c h; simp at h
  | cons a l ih =>
    intro c h
    by_cases ha : a.id = cid
    · rw [List.find?_cons_of_pos _ (by simpa using ha)] at h
      have hac : a = c := by simpa using h
      subst hac
      rw [updateClient_cons, if_pos ha,
        List.find?_cons_of_pos _ (by simpa using (hf a).trans ha)]
    · rw [List.find?_cons_of_neg _ (by simpa using ha)] at h
      rw [updateClient_cons, if_neg ha,
        List.find?_cons_of_neg _ (by simpa using ha)]
      exact ih c h

/-! ## Claim theorems for the PTY controller and router -/

/-- `C10`: every PTY output chunk is written to the local terminal's
stdout first — before, and regardless of, the relay data callback —
so the local terminal sees the whole stream even with zero clients. -/
theorem C10_local_mirror_before_callback (d : String) :
    ptyOnData false d = [Effect.writeStdout d] ∧
    ptyOnData true d = [Effect.writeStdout d, Effect.dataCallback d] ∧
    ∀ b, (ptyOnData b d).head? = some (Effect.writeStdout d) := by
  refine ⟨rfl, rfl, ?_⟩
  intro b
  cases b <;> rfl

/-- `C8`: an incoming frame that fails to parse (`none`, the
`JSON.parse` throw caught by the handler's `try`/`catch`) and a
well-formed envelope with an unknown `type` are both dropped: the handler
returns normally with no effects, and the registry, the history buffer
and the PTY state are all unchanged.  (The `console.error` log is a
side effect outside the model.) -/
theorem C8_malformed_message_is_noop (st : Srv) (cid : Nat) (ty : String) :
    handleMessage st cid none = (st, []) ∧
    handleMessage st cid (some (Envelope.unknown ty)) = (st, []) ∧
    (handleMessage st cid none).1.registry = st.registry ∧
    (handleMessage st cid none).1.buffer = st.buffer ∧
    (handleMessage st cid none).1.pty = st.pty ∧
    (handleMessage st cid (some (Envelope.unknown ty))).1.registry = st.registry ∧
    (handleMessage st cid (some (Envelope.unknown ty))).1.buffer = st.buffer ∧
    (handleMessage st cid (some (Envelope.unknown ty))).1.pty = st.pty :=
  ⟨rfl, rfl, rfl, rfl, rfl, rfl, rfl, rfl⟩

/-- `C7`: on PTY exit the controller transitions to not running, every
client whose socket is open is sent exactly one `exit` message carrying
the exit code (closed sockets are skipped and untouched), and any
subsequent `writeToPTY` or `resizePTY` is a silent no-op. -/
theorem C7_exit_broadcast_then_noops
    (code : Int) (clients : List WsClient) (d : String) (c r : Int) :
    (ptyExitStep code clients).1 = none ∧
    writeToPTY (ptyExitStep code clients).1 d = (ptyExitStep code clients).1 ∧
    resizePTY (ptyExitStep code clients).1 c r = (ptyExitStep code clients).1 ∧
    List.Forall₂ (fun cl cl' : WsClient =>
        cl'.wsOpen = cl.wsOpen ∧
        (cl.wsOpen = true → cl'.msgs = cl.msgs ++ [SMsg.exitMsg code]) ∧
        (cl.wsOpen = false → cl' = cl))
      clients (ptyExitStep code clients).2 := by
  refine ⟨rfl, rfl, rfl, ?_⟩
  show List.Forall₂ _ clients (broadcastToClients clients (SMsg.exitMsg code))
  unfold broadcastToClients
  induction clients with
  | nil => exact List.Forall₂.nil
  | cons a l ih =>
    simp only [List.map_cons]
    refine List.Forall₂.cons ?_ ih
    cases ha : a.wsOpen
    · simp [ha]
    · simp [ha]

/-- `C5`: an `asr_audio` message is dropped — nothing forwarded, nothing
sent back, the whole server state unchanged — unless the client's gateway
connection exists, is `OPEN` and `sessionReady` is confirmed; when it is,
the chunk is forwarded to the backend as a single `audio_data` message
(and only the chunk counter changes). -/
theorem C5_audio_dropped_until_ready
    (st : Srv) (cid : Nat) (c : ClientInfo) (audio : String)
    (hfind : findClient st cid = some c)
    (huniq : ∀ x ∈ st.registry, x.id = cid → x = c) :
    ((∀ conn, c.asrWs = some conn → ¬(conn.isOpen = true ∧ c.sessionReady = true)) →
        handleMessage st cid (some (Envelope.asrAudio audio)) = (st, [])) ∧
    (∀ conn, c.asrWs = some conn → conn.isOpen = true → c.sessionReady = true →
        handleMessage st cid (some (Envelope.asrAudio audio)) =
          ({ st with registry := updateClient st.registry cid (fun _ =>
              { c with audioChunkCount := c.audioChunkCount + 1 }) },
           [Effect.sendBackend (BMsg.audioData audio)])) := by
  have hmsg : handleMessage st cid (some (Envelope.asrAudio audio)) =
      ({ st with registry :=
          updateClient st.registry cid (fun _ => (handleAsrAudio c audio).1) },
       (handleAsrAudio c audio).2) := by
    show (match findClient st cid with
      | none => (st, [])
      | some c =>
          let r := handleAsrAudio c audio
          ({ st with registry := updateClient st.registry cid (fun _ => r.1) }, r.2)) = _
    rw [hfind]
  constructor
  · intro hnot
    have hdrop : handleAsrAudio c audio = (c, []) := by
      cases hws : c.asrWs with
      | none => unfold handleAsrAudio; rw [hws]
      | some conn =>
        unfold handleAsrAudio
        rw [hws]
        exact if_neg (hnot conn hws)
    rw [hmsg, hdrop,
      updateClient_eq_of cid _ st.registry (fun x hx hid => by rw [huniq x hx hid])]
  · intro conn hws hopen hready
    have hfwd : handleAsrAudio c audio =
        ({ c with audioChunkCount := c.audioChunkCount + 1 },
         [Effect.sendBackend (BMsg.audioData audio)]) := by
      unfold handleAsrAudio
      rw [hws]
      exact if_pos ⟨hopen, hready⟩
    rw [hmsg, hfwd]

/-- A client whose ASR session is ready: gateway connection `0` open and
`sessionReady` confirmed. -/
def readyClient : ClientInfo :=
  { id := 0, cols := 80, rows := 24, asrWs := some ⟨0, true⟩,
    sessionReady := true, audioChunkCount := 0, terminalContext := "" }

/-- Server state with the single ready client registered. -/
def srvReady : Srv :=
  { registry := [readyClient], buffer := [], pty := spawnPTY 80 24,
    localSize := ⟨80, 24⟩, nextConn := 1, openConns := [0], corrections := [] }

/-- Server state right after one client connected (fresh entry, no ASR
session yet). -/
def srv0 : Srv :=
  { registry := [initClientInfo 0], buffer := [], pty := spawnPTY 80 24,
    localSize := ⟨80, 24⟩, nextConn := 0, openConns := [], corrections := [] }

/-- Witness for `C5`: with the ready client, an audio chunk is forwarded
to the backend as `audio_data`. -/
theorem C5_audio_dropped_until_ready_witness :
    handleMessage srvReady 0 (some (Envelope.asrAudio "UklG")) =
      ({ srvReady with registry := updateClient srvReady.registry 0 (fun _ =>
          { readyClient with audioChunkCount := readyClient.audioChunkCount + 1 }) },
       [Effect.sendBackend (BMsg.audioData "UklG")]) :=
  (C5_audio_dropped_until_ready srvReady 0 readyClient "UklG"
      (by decide) (by decide)).2 ⟨0, true⟩ rfl rfl rfl

lemma applyMinSizeStep_snd (st : Srv) :
    (applyMinSizeStep st).2 =
      (match applyMinSize st.localSize st.registry with
       | some s => [Effect.resizePty s]
       | none => []) := by
  unfold applyMinSizeStep
  cases applyMinSize st.localSize st.registry <;> rfl

lemma applyMinSizeStep_registry (st : Srv) :
    (applyMinSizeStep st).1.registry = st.registry := by
  unfold applyMinSizeStep
  cases applyMinSize st.localSize st.registry <;> rfl

lemma handleClientClose_eq (st : Srv) (cid : Nat) (c : ClientInfo)
    (hfind : findClient st cid = some c) :
    handleClientClose st cid =
      ((applyMinSizeStep { st with
          registry := st.registry.eraseP (fun x => x.id = cid),
          openConns := match c.asrWs with
            | some conn => st.openConns.erase conn.connId
            | none => st.openConns }).1,
       (match c.asrWs with
        | some conn => [Effect.closeBackend conn.connId 0 1001]
        | none => []) ++
        (applyMinSizeStep { st with
          registry := st.registry.eraseP (fun x => x.id = cid),
          openConns := match c.asrWs with
            | some conn => st.openConns.erase conn.connId
            | none => st.openConns }).2) := by
  unfold handleClientClose
  rw [hfind]

/-- `C6`: on client disconnect the gateway connection is closed at once —
`close(1001)` with no delay — the registry entry is removed, and the size
reconciliation re-runs over the remaining clients; an explicit `asr_stop`
instead sends `stop_asr` to the backend and schedules the close only
1000 ms later. -/
theorem C6_disconnect_immediate_stop_deferred
    (st : Srv) (cid : Nat) (c : ClientInfo) (conn : AsrConn)
    (hfind : findClient st cid = some c)
    (hws : c.asrWs = some conn) (hopen : conn.isOpen = true) :
    (handleClientClose st cid).2 =
      Effect.closeBackend conn.connId 0 1001 ::
        (match applyMinSize st.localSize (st.registry.eraseP (fun x => x.id = cid)) with
         | some s => [Effect.resizePty s]
         | none => []) ∧
    (handleClientClose st cid).1.registry = st.registry.eraseP (fun x => x.id = cid) ∧
    handleAsrStop c =
      (c, [Effect.sendBackend BMsg.stopAsr,
           Effect.closeBackend conn.connId 1000 1000]) := by
  have he := handleClientClose_eq st cid c hfind
  rw [hws] at he
  refine ⟨?_, ?_, ?_⟩
  · rw [he, applyMinSizeStep_snd]
    rfl
  · rw [he, applyMinSizeStep_registry]
  · unfold handleAsrStop
    rw [hws]
    exact if_pos hopen

/-- Witness for `C6`: closing the ready client's connection closes
gateway connection 0 immediately and re-runs reconciliation (with no
clients left, back to the local 80×24); `asr_stop` defers by 1000 ms. -/
theorem C6_disconnect_immediate_stop_deferred_witness :
    (handleClientClose srvReady 0).2 =
      Effect.closeBackend 0 0 1001 ::
        (match applyMinSize srvReady.localSize
            (srvReady.registry.eraseP (fun x => x.id = 0)) with
         | some s => [Effect.resizePty s]
         | none => []) ∧
    (handleClientClose srvReady 0).1.registry =
      srvReady.registry.eraseP (fun x => x.id = 0) ∧
    handleAsrStop readyClient =
      (readyClient, [Effect.sendBackend BMsg.stopAsr,
                     Effect.closeBackend 0 1000 1000]) :=
  C6_disconnect_immediate_stop_deferred srvReady 0 readyClient ⟨0, true⟩
    (by decide) rfl rfl

/-- `C9`: a `claude_process` request handled over the fallback path (no
open ASR gateway connection) records a correction connection whose
closures capture the original transcript; if that backend connection then
fails, the client is sent exactly one `claude_response` carrying the
error and, as `fallback`, the original transcript. -/
theorem C9_correction_error_carries_fallback
    (st : Srv) (cid : Nat) (c : ClientInfo) (t ctx err : String)
    (hfind : findClient st cid = some c)
    (hnoopen : ∀ conn, c.asrWs = some conn → conn.isOpen = false) :
    ∃ s : CorrectionConn,
      (handleMessage st cid (some (Envelope.claudeProcess t ctx))).1.corrections =
        st.corrections ++ [s] ∧
      s.transcript = t ∧
      handleCorrectionError s err =
        [Effect.sendClient (SMsg.claudeResponse none false (some err) (some t))] := by
  have hmsg : handleMessage st cid (some (Envelope.claudeProcess t ctx)) =
      handleClaudeProcess st cid t ctx := rfl
  have hcp : handleClaudeProcess st cid t ctx = claudeFallback st t ctx := by
    unfold handleClaudeProcess
    rw [hfind]
    show (match c.asrWs with
      | some conn =>
          if conn.isOpen = true then
            (st, [Effect.sendBackend (BMsg.correctText t
                    (if ctx ≠ "" then ctx else c.terminalContext))])
          else claudeFallback st t ctx
      | none => claudeFallback st t ctx) = _
    cases hws : c.asrWs with
    | none => rfl
    | some conn =>
      exact if_neg (by rw [hnoopen conn hws]; exact fun h => Bool.false_ne_true h)
  refine ⟨⟨st.nextConn, t, ctx⟩, ?_, rfl, rfl⟩
  rw [hmsg, hcp]
  rfl

/-- Witness for `C9`: a failing correction for transcript `"ls -la"`
falls back to exactly that transcript. -/
theorem C9_correction_error_carries_fallback_witness :
    ∃ s : CorrectionConn,
      (handleMessage srv0 0 (some (Envelope.claudeProcess "ls -la" ""))).1.corrections =
        srv0.corrections ++ [s] ∧
      s.transcript = "ls -la" ∧
      handleCorrectionError s "ECONNREFUSED" =
        [Effect.sendClient (SMsg.claudeResponse none false
          (some "ECONNREFUSED") (some "ls -la"))] :=
  C9_correction_error_carries_fallback srv0 0 (initClientInfo 0) "ls -la" "" "ECONNREFUSED"
    (by decide) (fun conn h => by simp [initClientInfo] at h)

/-- Counterexample to `C2` as stated: from a fresh client, two
`asr_start` messages leave TWO backend connections for which the relay
never issued a close (`openConns = [0, 1]`), while the client's `asrWs`
references only the second; the second start produced no error to the
client and no close of the first connection (its only effect is opening
connection 1).  The first backend connection is leaked open. -/
theorem C2_counterexample_second_start_leaks :
    ((handleMessage (handleMessage srv0 0 (some (Envelope.asrStart "" "" ""))).1 0
        (some (Envelope.asrStart "" "" ""))).1.openConns = [0, 1]) ∧
    ((handleMessage (handleMessage srv0 0 (some (Envelope.asrStart "" "" ""))).1 0
        (some (Envelope.asrStart "" "" ""))).2 = [Effect.openBackend 1]) ∧
    ((findClient (handleMessage (handleMessage srv0 0 (some (Envelope.asrStart "" "" ""))).1 0
        (some (Envelope.asrStart "" "" ""))).1 0).map ClientInfo.asrWs =
      some (some ⟨1, false⟩)) := by
  decide

/-- `C2` amended: a second `asr_start` while the client already holds a
backend connection is neither rejected nor does it close the existing
connection — it opens a fresh backend connection, repoints the client's
`asrWs` at it, and leaves the previous connection open (leaked): both
connections are in `openConns` afterwards, and the only effect is the
open of the new connection (no error to the client, no close). -/
theorem C2_second_start_replaces_without_closing
    (st : Srv) (cid : Nat) (c : ClientInfo) (conn : AsrConn) (lang mdl ctx : String)
    (hfind : findClient st cid = some c)
    (hws : c.asrWs = some conn)
    (hopen : conn.connId ∈ st.openConns) :
    ((findClient (handleMessage st cid (some (Envelope.asrStart lang mdl ctx))).1 cid).map
        ClientInfo.asrWs = some (some ⟨st.nextConn, false⟩)) ∧
    conn.connId ∈ (handleMessage st cid (some (Envelope.asrStart lang mdl ctx))).1.openConns ∧
    st.nextConn ∈ (handleMessage st cid (some (Envelope.asrStart lang mdl ctx))).1.openConns ∧
    (handleMessage st cid (some (Envelope.asrStart lang mdl ctx))).2 =
      [Effect.openBackend st.nextConn] := by
  have hmsg : handleMessage st cid (some (Envelope.asrStart lang mdl ctx)) =
      handleAsrStart st cid ctx := rfl
  rw [hmsg]
  have hreg : (handleAsrStart st cid ctx).1.registry =
      updateClient st.registry cid (asrStartUpdate st.nextConn ctx) := rfl
  refine ⟨?_, ?_, ?_, rfl⟩
  · show ((handleAsrStart st cid ctx).1.registry.find? (fun x => x.id = cid)).map
        ClientInfo.asrWs = _
    have hfu := find?_updateClient cid (asrStartUpdate st.nextConn ctx)
      (fun _ => rfl) st.registry c hfind
    rw [hreg, hfu]
    rfl
  · show conn.connId ∈ st.openConns ++ [st.nextConn]
    exact List.mem_append_left _ hopen
  · show st.nextConn ∈ st.openConns ++ [st.nextConn]
    exact List.mem_append_right _ (List.mem_singleton.mpr rfl)

/-- Witness for the amended `C2`: concretely, the second `asr_start` on
the fresh client leaves connection 0 open next to the new connection 1. -/
theorem C2_second_start_replaces_without_closing_witness :
    (0 : Nat) ∈ (handleMessage (handleMessage srv0 0 (some (Envelope.asrStart "" "" ""))).1 0
        (some (Envelope.asrStart "zh" "m" "ctx"))).1.openConns ∧
    (1 : Nat) ∈ (handleMessage (handleMessage srv0 0 (some (Envelope.asrStart "" "" ""))).1 0
        (some (Envelope.asrStart "zh" "m" "ctx"))).1.openConns := by
  have h := C2_second_start_replaces_without_closing
    (handleMessage srv0 0 (some (Envelope.asrStart "" "" ""))).1 0
    { initClientInfo 0 with asrWs := some ⟨0, false⟩ } ⟨0, false⟩ "zh" "m" "ctx"
    (by decide) rfl (by decide)
  exact ⟨h.2.1, h.2.2.1⟩

/-! ## History replay ordering (`wss.on('connection')` vs `onPTYData`) -/

/-- The two event sources that race for a client's message stream: a new
client connection (web-server.ts lines 1691–1703) and a PTY output chunk
(lines 1993–2005).  Node's event loop runs each handler to completion,
so a run of the relay is a sequence of these events. -/
inductive REv where
  | connect (cid : Nat)
  | ptyData (d : String)
  deriving Repr, DecidableEq

/-- A connected client, with every message the relay sent it, in order
(per-client WebSocket delivery is FIFO). -/
structure ConnClient where
  id : Nat
  msgs : List SMsg
  deriving Repr, DecidableEq

/-- The broadcaster's state: the `outputBuffer` and the connected
clients. -/
structure BState where
  buffer : List String
  clients : List ConnClient
  deriving Repr, DecidableEq

/-- One event: `connect` registers the client and sends it the whole
buffer as one `history` message — but only when the buffer is nonempty
(`if (outputBuffer.length > 0)`, line 1701); `ptyData` appends to the
buffer (with the trim of `pushChunk`) and sends one `output` message to
every connected client. -/
def bStep (st : BState) : REv → BState
  | .connect cid =>
      { st with clients := st.clients ++
          [⟨cid, if 0 < st.buffer.length then [SMsg.history st.buffer] else []⟩] }
  | .ptyData d =>
      { buffer := pushChunk st.buffer d,
        clients := st.clients.map (fun c => { c with msgs := c.msgs ++ [SMsg.output d] }) }

/-- Run the relay from startup (empty buffer, no clients). -/
def bRun (evs : List REv) : BState :=
  evs.foldl bStep ⟨[], []⟩

/-- The ids of the clients that connect during `evs`. -/
def connectsOf (evs : List REv) : List Nat :=
  evs.filterMap (fun e => match e with | .connect cid => some cid | .ptyData _ => none)

/-- The live `output` messages generated during `evs`, in order. -/
def outputsOf (evs : List REv) : List SMsg :=
  evs.filterMap (fun e => match e with | .ptyData d => some (SMsg.output d) | .connect _ => none)

/-- The value of `outputBuffer` after `evs`. -/
def bufferOf (evs : List REv) : List String :=
  evs.foldl (fun b e => match e with | .ptyData d => pushChunk b d | .connect _ => b) []

lemma bStep_connect (st : BState) (cid : Nat) :
    bStep st (REv.connect cid) =
      { st with clients := st.clients ++
          [⟨cid, if 0 < st.buffer.length then [SMsg.history st.buffer] else []⟩] } := rfl

lemma bStep_ptyData (st : BState) (d : String) :
    bStep st (REv.ptyData d) =
      { buffer := pushChunk st.buffer d,
        clients := st.clients.map (fun c => { c with msgs := c.msgs ++ [SMsg.output d] }) } := rfl

lemma buffer_foldl (evs : List REv) : ∀ st : BState,
    (List.foldl bStep st evs).buffer =
      evs.foldl (fun b e => match e with | .ptyData d => pushChunk b d | .connect _ => b)
        st.buffer := by
  induction evs with
  | nil => intro st; rfl
  | cons e rest ih =>
    intro st
    cases e with
    | connect cid => rw [List.foldl_cons, List.foldl_cons, ih]; rfl
    | ptyData d => rw [List.foldl_cons, List.foldl_cons, ih]; rfl

lemma ids_foldl (evs : List REv) : ∀ st : BState,
    (List.foldl bStep st evs).clients.map ConnClient.id =
      st.clients.map ConnClient.id ++ connectsOf evs := by
  induction evs with
  | nil => intro st; simp [connectsOf]
  | cons e rest ih =>
    intro st
    cases e with
    | connect cid =>
      rw [List.foldl_cons, ih, bStep_connect]
      simp [connectsOf, List.filterMap_cons]
    | ptyData d =>
      rw [List.foldl_cons, ih, bStep_ptyData]
      simp [connectsOf, List.filterMap_cons, List.map_map, Function.comp]

lemma filter_clients_foldl (cid : Nat) :
    ∀ (evs : List REv) (st : BState), cid ∉ connectsOf evs →
      (List.foldl bStep st evs).clients.filter (fun c => c.id = cid) =
        (st.clients.filter (fun c => c.id = cid)).map
          (fun c => { c with msgs := c.msgs ++ outputsOf evs }) := by
  intro evs
  induction evs with
  | nil =>
    intro st _
    have hfn : (fun c : ConnClient => { c with msgs := c.msgs ++ outputsOf [] }) =
        fun c => c := by
      funext c
      show ({ c with msgs := c.msgs ++ [] } : ConnClient) = c
      rw [List.append_nil]
    rw [List.foldl_nil, hfn, List.map_id']
  | cons e rest ih =>
    intro st hfresh
    cases e with
    | connect c' =>
      have hne : ¬(c' = cid) ∧ cid ∉ connectsOf rest := by
        rw [show connectsOf (REv.connect c' :: rest) = c' :: connectsOf rest from rfl,
          List.mem_cons] at hfresh
        push_neg at hfresh
        exact ⟨fun h => hfresh.1 h.symm, hfresh.2⟩
      rw [List.foldl_cons, ih _ hne.2, bStep_connect]
      congr 1
      rw [List.filter_append]
      rw [show List.filter (fun c => decide (c.id = cid))
            [(⟨c', if 0 < st.buffer.length then [SMsg.history st.buffer] else []⟩ : ConnClient)]
          = [] from by simp [hne.1]]
      rw [List.append_nil]
    | ptyData d =>
      have hrest : cid ∉ connectsOf rest := by
        rw [show connectsOf (REv.ptyData d :: rest) = connectsOf rest from rfl] at hfresh
        exact hfresh
      rw [List.foldl_cons, ih _ hrest, bStep_ptyData]
      rw [show outputsOf (REv.ptyData d :: rest) = SMsg.output d :: outputsOf rest from rfl]
      rw [List.filter_map, show ((fun c : ConnClient => decide (c.id = cid)) ∘
            (fun c => { c with msgs := c.msgs ++ [SMsg.output d] })) =
          (fun c : ConnClient => decide (c.id = cid)) from rfl]
      rw [List.map_map]
      congr 1
      funext c
      show ({ c with msgs := (c.msgs ++ [SMsg.output d]) ++ outputsOf rest } : ConnClient) =
        { c with msgs := c.msgs ++ (SMsg.output d :: outputsOf rest) }
      rw [List.append_assoc, List.singleton_append]

/-- `C3` amended: a client that connects (under a fresh id) after the
trace `pre` and before the trace `post` ends up with exactly this message
list — one `history` message holding the entire buffer at connect time
(the trimmed most recent chunks) when that buffer is nonempty, and *no*
history message when it is empty, followed by exactly the live `output`
chunks produced after it connected.  In particular any history message
strictly precedes every live output message sent to that client. -/
theorem C3_history_before_live_output (pre post : List REv) (cid : Nat)
    (hpre : cid ∉ connectsOf pre) (hpost : cid ∉ connectsOf post) :
    (bRun (pre ++ REv.connect cid :: post)).clients.filter (fun c => c.id = cid) =
      [⟨cid, (if 0 < (bufferOf pre).length then [SMsg.history (bufferOf pre)] else []) ++
          outputsOf post⟩] := by
  unfold bRun
  rw [List.foldl_append, List.foldl_cons]
  rw [filter_clients_foldl cid post _ hpost]
  have hbuf : (List.foldl bStep ⟨[], []⟩ pre).buffer = bufferOf pre := buffer_foldl pre _
  have hnone : (List.foldl bStep ⟨[], []⟩ pre).clients.filter (fun c => c.id = cid) = [] := by
    rw [List.filter_eq_nil_iff]
    intro a ha hp
    have hmem : a.id ∈ (List.foldl bStep ⟨[], []⟩ pre).clients.map ConnClient.id :=
      List.mem_map_of_mem _ ha
    rw [ids_foldl] at hmem
    simp only [List.map_nil, List.nil_append] at hmem
    exact hpre (by rwa [of_decide_eq_true hp] at hmem)
  rw [bStep_connect, List.filter_append, hnone, List.nil_append]
  rw [show List.filter (fun c => decide (c.id = cid))
        [(⟨cid, if 0 < (List.foldl bStep ⟨[], []⟩ pre).buffer.length
            then [SMsg.history (List.foldl bStep ⟨[], []⟩ pre).buffer] else []⟩ : ConnClient)] =
      [⟨cid, if 0 < (List.foldl bStep ⟨[], []⟩ pre).buffer.length
          then [SMsg.history (List.foldl bStep ⟨[], []⟩ pre).buffer] else []⟩] from by simp]
  rw [List.map_cons, List.map_nil, hbuf]

/-- Witness for the amended `C3`: client 7 connects after one chunk and
before another; it gets the one-element history, then the one live
output. -/
theorem C3_history_before_live_output_witness :
    (bRun ([REv.ptyData "a"] ++ REv.connect 7 :: [REv.ptyData "b"])).clients.filter
        (fun c => c.id = 7) =
      [⟨7, (if 0 < (bufferOf [REv.ptyData "a"]).length
            then [SMsg.history (bufferOf [REv.ptyData "a"])] else []) ++
          outputsOf [REv.ptyData "b"]⟩] :=
  C3_history_before_live_output [REv.ptyData "a"] [REv.ptyData "b"] 7
    (by decide) (by decide)

/-- Counterexample to `C3` as stated: a client that connects after `N = 0`
output chunks receives *no* history message at all (the code guards the
send with `outputBuffer.length > 0`), not "exactly one history message
containing the entire (empty) buffer": its message list is empty. -/
theorem C3_counterexample_no_history_when_empty :
    (bRun [REv.connect 0]).clients.map ConnClient.msgs = [[]] := by
  decide

end Gogogo
